import Mathlib

/-!
Shallow embedding of the agent core of the `chainlit-mcp-client` repository.

The embedding covers:
* `src/core/engine.py` — `ChatEngine.process_turn`, `_store_message`,
  `_build_completion_text` (the ReAct orchestration loop);
* `src/core/mcp_client.py` — `MCPClientWrapper.list_tools`, `call_tool`,
  `handle_sampling`;
* `src/core/memory_store.py` — `MemoryStore.add_message`, `get_messages`,
  `save_summary`, `touch_conversation`.

External effects (the LLM endpoint, MCP server sessions, the JSON and
Python-literal parsers from the standard library, the tokenizer, clock
timestamps) are modelled as oracle functions supplied in an environment
record; the control flow around them is translated statement by statement
from the Python source.
-/

namespace ChainlitMCP

/-- Python runtime values, as far as the engine inspects them: `None`,
booleans, integers, strings, lists and string-keyed dicts.  This is the
codomain of the `json.loads` / `ast.literal_eval` oracles and the argument
type handed to `MCPClientWrapper.call_tool`. -/
inductive PyVal where
  | pynone : PyVal
  | pybool : Bool → PyVal
  | pyint : Int → PyVal
  | pystr : String → PyVal
  | pylist : List PyVal → PyVal
  | pydict : List (String × PyVal) → PyVal

/-- Python `isinstance(v, dict)`. -/
def isDict : PyVal → Bool
  | .pydict _ => true
  | _ => false

/-- Python `d.get(k)` on a dict literal: first matching key, else absent. -/
def pyDictGet (kvs : List (String × PyVal)) (k : String) : Option PyVal :=
  (kvs.find? (fun kv => kv.1 = k)).map (fun kv => kv.2)

/-- Python `d.get(k)` with default `None`. -/
def pyGetOrNone (kvs : List (String × PyVal)) (k : String) : PyVal :=
  (pyDictGet kvs k).getD .pynone

/-- JSON string quoting as produced by `json.dumps` (escaping of quote and
backslash; escaping of control characters is elided in the model). -/
def jsonQuote (s : String) : String :=
  "\"" ++ ((s.replace "\\" "\\\\").replace "\"" "\\\"") ++ "\""

/-- `json.dumps` with `ensure_ascii=False`, default separators.  The engine
also calls `json.dumps(…, indent=2)` for one display string; the model
renders that on one line (whitespace of the display string is not load
bearing for any claim). -/
def jsonDumps : PyVal → String
  | .pynone => "null"
  | .pybool true => "true"
  | .pybool false => "false"
  | .pyint n => toString n
  | .pystr s => jsonQuote s
  | .pylist xs =>
      "[" ++ String.intercalate ", " (xs.attach.map (fun x => jsonDumps x.1)) ++ "]"
  | .pydict kvs =>
      "\x7b" ++ String.intercalate ", "
        (kvs.attach.map (fun kv => jsonQuote kv.1.1 ++ ": " ++ jsonDumps kv.1.2)) ++ "\x7d"
decreasing_by
  · have := List.sizeOf_lt_of_mem x.2
    simp only [PyVal.pylist.sizeOf_spec]
    omega
  · have h1 := List.sizeOf_lt_of_mem kv.2
    have h2 : sizeOf kv.1.2 < sizeOf kv.1 := by
      obtain ⟨a, b⟩ := kv.1
      simp only [Prod.mk.sizeOf_spec]
      omega
    simp only [PyVal.pydict.sizeOf_spec]
    omega

/-- A single-quote character, used by Python `repr` of strings. -/
def sq : String := String.singleton (Char.ofNat 39)

/-- Python `str` of a list of strings, e.g. `['a', 'b']`; this is how the
available-tool-names list is interpolated into the not-found error. -/
def py_list_repr (xs : List String) : String :=
  "[" ++ String.intercalate ", " (xs.map (fun s => sq ++ s ++ sq)) ++ "]"

/-- Python `x or default` for an optional string `x` (`None` and `""` are
falsy). -/
def py_str_or (x : Option String) (default : String) : String :=
  match x with
  | none => default
  | some s => if s = "" then default else s

/-- Python truthiness of an optional string. -/
def py_opt_truthy (x : Option String) : Bool :=
  match x with
  | none => false
  | some s => !(s = "")

/-- The `function` field of an OpenAI tool call: a tool name plus the raw
JSON-text arguments blob. -/
structure ToolCallFunction where
  name : String
  arguments : String
deriving DecidableEq

/-- One tool call requested by the model. -/
structure ToolCall where
  id : String
  function : ToolCallFunction
deriving DecidableEq

/-- One entry of `ChatEngine.messages` (OpenAI-style chat message dict). -/
structure Message where
  role : String
  content : Option String
  tool_call_id : Option String := none
  tool_calls : Option (List ToolCall) := none
deriving DecidableEq

/-- The assistant message inside `completion.choices[0]`. -/
structure AssistantMessage where
  content : Option String
  tool_calls : Option (List ToolCall)
deriving DecidableEq

/-- `msg.model_dump()`: the assistant message as a history dict. -/
def AssistantMessage.model_dump (m : AssistantMessage) : Message :=
  { role := "assistant", content := m.content, tool_call_id := none,
    tool_calls := m.tool_calls }

/-- Python truthiness of `msg.tool_calls` (`None` and `[]` are falsy). -/
def has_tool_calls : Option (List ToolCall) → Bool
  | none => false
  | some [] => false
  | some (_ :: _) => true

/-- One tool descriptor as returned by a server session's `list_tools`. -/
structure ToolDef where
  name : String
  description : String
  input_schema : String
deriving DecidableEq

/-- Progress events yielded by `process_turn` (and the usage events buffered
by the sampling bridge).  `step_start` events carry `step_type` `"llm"` or
`"tool"`; the two shapes are split into two constructors because their
`input` payloads have different types (history snapshot vs. argument
text). -/
inductive Event where
  | step_start_llm (name : String) (input : List Message)
  | step_start_tool (name : String) (input : String)
  | step_update_name (name : String)
  | step_output (output : Option String)
  | usage (input output total : Nat) (source method : String)
  | message (content : Option String)
  | error (content : String)
deriving DecidableEq

/-- Whether an event is a `message` (final answer) event. -/
def is_message_event : Event → Bool
  | .message _ => true
  | _ => false

/-- Whether an event is an `error` event. -/
def is_error_event : Event → Bool
  | .error _ => true
  | _ => false

/-- Server-reported token usage attached to a completion. -/
structure Usage where
  prompt_tokens : Nat
  completion_tokens : Nat
  total_tokens : Nat
deriving DecidableEq

/-- The chat-completion response, reduced to the fields the engine reads:
`choices[0].message` and the optional `usage` block. -/
structure Completion where
  message : AssistantMessage
  usage : Option Usage
deriving DecidableEq

/-- One item of an MCP tool result's `content` list: either an object with
a `text` attribute or anything else (rendered through `str`). -/
inductive ResultItem where
  | text_item (text : String)
  | other_item (as_str : String)
deriving DecidableEq

/-- The `content` field of an MCP tool result: a list of items, or any
non-list value (rendered through `str`). -/
inductive ResultContent where
  | content_list (items : List ResultItem)
  | content_other (as_str : String)
deriving DecidableEq

/-- An MCP tool-call result. -/
structure ToolResult where
  content : ResultContent
deriving DecidableEq

/-- The text-extraction loop of `process_turn` (engine.py lines 264-272):
concatenate `.text` of list items (falling back to `str(item)`), or
`str(result.content)` for a non-list. -/
def extract_content : ResultContent → String
  | .content_list items =>
      items.foldl
        (fun acc it =>
          acc ++ match it with
                 | .text_item t => t
                 | .other_item s => s)
        ""
  | .content_other s => s

/-- Argument parsing of `process_turn` (engine.py lines 236-246):
`json.loads`, then `ast.literal_eval` restricted to dict results, then the
empty dict.  The two parsers are oracles returning `none` exactly when the
library call raises. -/
def parse_tool_args (json_loads literal_eval : String → Option PyVal)
    (s : String) : PyVal :=
  match json_loads s with
  | some v => v
  | none =>
      match literal_eval s with
      | some v => if isDict v then v else .pydict []
      | none => .pydict []

/-- One record of the `search_arxiv` display simplifier (engine.py lines
281-287).  Returns `none` when the Python loop body would raise (the paper
is not a dict, or its `summary` value cannot be string-sliced and
concatenated), which sends the whole display computation to the
500-character fallback. -/
def simplify_paper : PyVal → Option PyVal
  | .pydict kvs =>
      match (pyDictGet kvs "summary").getD (.pystr "") with
      | .pystr s =>
          some (.pydict
            [("id", pyGetOrNone kvs "id"),
             ("title", pyGetOrNone kvs "title"),
             ("published", pyGetOrNone kvs "published"),
             ("summary", .pystr (s.take 200 ++ "..."))])
      | _ => none
  | _ => none

/-- The `search_arxiv` display branch (engine.py lines 276-293): parse the
tool output as JSON; on a list, simplify each record and dump; on anything
else or on any exception, ellipsis-truncate to 500 characters. -/
def search_display (json_loads : String → Option PyVal) (content_str : String) :
    String :=
  match json_loads content_str with
  | some (.pylist papers) =>
      match papers.mapM simplify_paper with
      | some simplified => jsonDumps (.pylist simplified)
      | none => content_str.take 500 ++ "..."
  | some _ => content_str.take 500 ++ "..."
  | none => content_str.take 500 ++ "..."

/-- Display output preparation (engine.py lines 274-295). -/
def compute_display (json_loads : String → Option PyVal)
    (func_name content_str : String) : String :=
  if func_name = "search_arxiv" then search_display json_loads content_str
  else content_str.take 500 ++ "..."

/-- One entry of the `safe_calls` list in `_build_completion_text`. -/
def dump_call (c : ToolCall) : PyVal :=
  .pydict [("name", .pystr c.function.name),
           ("arguments", .pystr c.function.arguments)]

/-- `ChatEngine._build_completion_text` (engine.py lines 38-60): best-effort
text for counting completion tokens. -/
def build_completion_text (m : AssistantMessage) : String :=
  if py_opt_truthy m.content then m.content.getD ""
  else
    match m.tool_calls with
    | none => ""
    | some [] => ""
    | some calls => jsonDumps (.pylist (calls.map dump_call))

/-- One live MCP server session, reduced to what the engine observes: its
name (the `sessions` dict key), the outcome of `session.list_tools()` this
turn, and the behaviour of `session.call_tool` (errors model raised
exceptions, carrying `str(e)`). -/
structure ServerSession where
  name : String
  tools_reply : Except String (List ToolDef)
  call_tool : String → PyVal → Except String ToolResult

/-- State of `MCPClientWrapper`: the ordered session dict and the
`tool_to_server` routing dict (an insertion-ordered association list with
unique keys, as a Python dict). -/
structure MCPState where
  sessions : List ServerSession
  tool_to_server : List (String × String)

/-- Python `d[k] = v` on an insertion-ordered dict: overwrite in place, or
append a fresh key. -/
def dict_set (d : List (String × String)) (k v : String) :
    List (String × String) :=
  if d.any (fun kv => kv.1 = k) then
    d.map (fun kv => if kv.1 = k then (k, v) else kv)
  else d ++ [(k, v)]

/-- Python `d.get(k)` on an insertion-ordered dict. -/
def dict_get (d : List (String × String)) (k : String) : Option String :=
  (d.find? (fun kv => kv.1 = k)).map (fun kv => kv.2)

/-- `MCPClientWrapper.list_tools` (mcp_client.py lines 108-124): clear the
routing map, then per server (skipping servers whose `list_tools` raises)
append every tool and point its name at that server (last wins).  The
per-server try/except makes the aggregate total. -/
def mcp_list_tools (m : MCPState) : List ToolDef × MCPState :=
  let r := m.sessions.foldl
    (fun (acc : List ToolDef × List (String × String)) s =>
      match s.tools_reply with
      | .error _ => acc
      | .ok ts =>
          (acc.1 ++ ts, ts.foldl (fun d t => dict_set d t.name s.name) acc.2))
    ([], [])
  (r.1, { m with tool_to_server := r.2 })

/-- `self.sessions.get(server_name)`. -/
def find_session (m : MCPState) (server : String) : Option ServerSession :=
  m.sessions.find? (fun s => s.name = server)

/-- A record of one `session.call_tool` invocation actually dispatched to a
backend server. -/
structure Dispatch where
  server : String
  tool : String
  args : PyVal

/-- `MCPClientWrapper.call_tool` (mcp_client.py lines 126-145): route the
name through `tool_to_server` (a missing or empty server name raises
`ValueError`, a missing session raises `RuntimeError`), then invoke the
session.  The returned list records the dispatch, if any. -/
def mcp_call_tool (m : MCPState) (name : String) (args : PyVal) :
    Except String ToolResult × List Dispatch :=
  match dict_get m.tool_to_server name with
  | none =>
      (.error ("Tool " ++ name ++ " not found in any connected server."), [])
  | some server =>
      if server = "" then
        (.error ("Tool " ++ name ++ " not found in any connected server."), [])
      else
        match find_session m server with
        | none => (.error ("Session for " ++ server ++ " is not active."), [])
        | some s => (s.call_tool name args, [⟨server, name, args⟩])

/-- The engine-side mutable state touched by `process_turn`: the history
list plus the persistence fields.  `store_log` records the
`MemoryStore.add_message(conversation_id, role, content)` calls issued
through `_store_message` (the store itself is modelled separately). -/
structure EngineState where
  messages : List Message
  persistent_enabled : Bool
  has_memory_store : Bool
  conversation_id : Option String
  memory_dirty : Bool
  store_log : List (String × String)
deriving DecidableEq

/-- `ChatEngine._store_message` (engine.py lines 111-118): skip unless
persistence is on, a store exists and a conversation id is set (Python
truthiness, so `None` and `""` ids both skip); skip empty content; else
record the `add_message` call and set the dirty flag. -/
def store_message (s : EngineState) (role : String) (content : Option String) :
    EngineState :=
  if !s.persistent_enabled || !s.has_memory_store
      || !(py_opt_truthy s.conversation_id) then s
  else if !(py_opt_truthy content) then s
  else
    { s with store_log := s.store_log ++ [(role, content.getD "")],
             memory_dirty := true }

/-- The settings fields `process_turn` reads. -/
structure Settings where
  token_usage_enabled : Bool
  assistant_name : String

/-- Oracles for the external effects of a turn: the LLM endpoint (indexed
by the number of `chat_completion` calls made so far in this turn, so the
k-th call's outcome is `llm k`), the sampling-usage buffer pops (indexed
likewise, each yielding `(input, output, total)` triples — the only shape
`handle_sampling` buffers), the two argument parsers, and the token
counter. -/
structure Env where
  llm : Nat → Except String Completion
  pop_sampling : Nat → List (Nat × Nat × Nat)
  json_loads : String → Option PyVal
  literal_eval : String → Option PyVal
  count_messages : List Message → Nat
  count_text : String → Nat
  settings : Settings

/-- The usage events yielded after one successful LLM call (engine.py lines
182-203 and 326-346): a `local` event when local counting is on, else a
`server` event when the backend reported usage, else nothing. -/
def usage_events (env : Env) (msgs : List Message) (c : Completion) :
    List Event :=
  if env.settings.token_usage_enabled then
    let ctext := build_completion_text c.message
    let pt := env.count_messages msgs
    let ct := env.count_text ctext
    [Event.usage pt ct (pt + ct) "llm" "local"]
  else
    match c.usage with
    | some u =>
        [Event.usage u.prompt_tokens u.completion_tokens u.total_tokens
          "llm" "server"]
    | none => []

/-- Result of processing one requested tool call. -/
structure ToolStepResult where
  events : List Event
  engine : EngineState
  dispatches : List Dispatch
  pop_idx : Nat

/-- The history entry appended for a tool result (engine.py lines 304-308
and 312-316). -/
def mk_tool_message (id content : String) : Message :=
  { role := "tool", content := some content, tool_call_id := some id,
    tool_calls := none }

/-- The `f"Error executing tool: {str(e)}"` wrapper (engine.py line 311). -/
def tool_error_message (e : String) : String := "Error executing tool: " ++ e

/-- The `ValueError` text for an unknown tool name (engine.py line 258). -/
def tool_not_found_message (name : String) (available : List String) : String :=
  "Tool " ++ sq ++ name ++ sq ++ " not found. Available tools: "
    ++ py_list_repr available

/-- The body of the `for tool_call in msg.tool_calls` loop (engine.py lines
229-317): emit `step_start`, parse arguments, validate the name (with the
`"search"` → `"search_arxiv"` rename heuristic), dispatch through the MCP
wrapper, and append either the full result text or the wrapped error text
to history as a tool-role message. -/
def process_tool_call (env : Env) (mcp : MCPState) (tools : List ToolDef)
    (pop_idx : Nat) (st : EngineState) (tc : ToolCall) : ToolStepResult :=
  let ev0 := Event.step_start_tool tc.function.name tc.function.arguments
  let args := parse_tool_args env.json_loads env.literal_eval
    tc.function.arguments
  let names := tools.map (fun t => t.name)
  if tc.function.name ∈ names ∨ tc.function.name = "search" then
    -- dispatch path (possibly after the rename heuristic)
    let fn := if tc.function.name ∈ names then tc.function.name
              else "search_arxiv"
    let rename_events :=
      if tc.function.name ∈ names then []
      else [Event.step_update_name "search_arxiv (corrected)"]
    let call := mcp_call_tool mcp fn args
    match call.1 with
    | .error e =>
        let emsg := tool_error_message e
        { events := [ev0] ++ rename_events ++ [Event.step_output (some emsg)],
          engine := { st with messages := st.messages
                        ++ [mk_tool_message tc.id emsg] },
          dispatches := call.2,
          pop_idx := pop_idx }
    | .ok result =>
        let content_str := extract_content result.content
        let display := compute_display env.json_loads fn content_str
        let pops := (env.pop_sampling pop_idx).map
          (fun u => Event.usage u.1 u.2.1 u.2.2 "mcp_sampling" "local")
        { events := [ev0] ++ rename_events
                      ++ [Event.step_output (some display)] ++ pops,
          engine := { st with messages := st.messages
                        ++ [mk_tool_message tc.id content_str] },
          dispatches := call.2,
          pop_idx := pop_idx + 1 }
  else
    -- unknown name other than "search": synthetic tool-result error
    let emsg := tool_error_message (tool_not_found_message tc.function.name names)
    { events := [ev0, Event.step_output (some emsg)],
      engine := { st with messages := st.messages
                    ++ [mk_tool_message tc.id emsg] },
      dispatches := [],
      pop_idx := pop_idx }

/-- Sequential processing of all tool calls of one model reply. -/
def run_tool_calls (env : Env) (mcp : MCPState) (tools : List ToolDef) :
    List ToolCall → EngineState → Nat → ToolStepResult
  | [], st, pop_idx => { events := [], engine := st, dispatches := [],
                         pop_idx := pop_idx }
  | tc :: rest, st, pop_idx =>
      let r := process_tool_call env mcp tools pop_idx st tc
      let rr := run_tool_calls env mcp tools rest r.engine r.pop_idx
      { events := r.events ++ rr.events, engine := rr.engine,
        dispatches := r.dispatches ++ rr.dispatches, pop_idx := rr.pop_idx }

/-- Accumulated observable state of a turn in flight: the engine state, the
number of `chat_completion` calls and buffer pops so far, the events
yielded, the trace of `chat_completion` call sites (history sent, and the
tools argument — `none` when the call site passes no tool list), and the
dispatched backend calls. -/
structure LoopState where
  engine : EngineState
  call_idx : Nat
  pop_idx : Nat
  events : List Event
  llm_calls : List (List Message × Option (List ToolDef))
  dispatches : List Dispatch

/-- The main `for i in range(max_turns)` loop of `process_turn` (engine.py
lines 169-317).  The returned flag is `true` when the generator returned
from inside the loop (final answer or LLM error), in which case the final
fallback is skipped. -/
def run_loop (env : Env) (mcp : MCPState) (tools : List ToolDef) :
    Nat → LoopState → LoopState × Bool
  | 0, ls => (ls, false)
  | fuel + 1, ls =>
    let ls1 := { ls with
      events := ls.events
        ++ [Event.step_start_llm env.settings.assistant_name ls.engine.messages],
      llm_calls := ls.llm_calls ++ [(ls.engine.messages, some tools)] }
    match env.llm ls1.call_idx with
    | .error e =>
        ({ ls1 with call_idx := ls1.call_idx + 1,
                    events := ls1.events ++ [Event.error ("LLM Error: " ++ e)] },
         true)
    | .ok c =>
        let msg := c.message
        let ls2 := { ls1 with
          call_idx := ls1.call_idx + 1,
          events := ls1.events ++ usage_events env ls1.engine.messages c
            ++ [Event.step_output (some (py_str_or msg.content "Tool Call Requested"))] }
        if has_tool_calls msg.tool_calls then
          let eng := { ls2.engine with
            messages := ls2.engine.messages ++ [msg.model_dump] }
          let r := run_tool_calls env mcp tools (msg.tool_calls.getD []) eng
            ls2.pop_idx
          run_loop env mcp tools fuel
            { ls2 with engine := r.engine, pop_idx := r.pop_idx,
                       events := ls2.events ++ r.events,
                       dispatches := ls2.dispatches ++ r.dispatches }
        else
          let eng := { ls2.engine with
            messages := ls2.engine.messages ++ [msg.model_dump] }
          let eng2 := store_message eng "assistant" (some (py_str_or msg.content ""))
          ({ ls2 with engine := eng2,
                      events := ls2.events
                        ++ [Event.step_output (some "Response generated."),
                            Event.message msg.content] },
           true)

/-- The final fallback of `process_turn` (engine.py lines 319-352): when
the loop ran out of budget and the last history entry is a tool result,
issue one more `chat_completion` call without a tools argument and yield
the final `message` (or an error event if that call raises). -/
def final_fallback (env : Env) (ls : LoopState) : LoopState :=
  match ls.engine.messages.getLast? with
  | none => ls
  | some m =>
    if m.role = "tool" then
      let ls1 := { ls with
        events := ls.events
          ++ [Event.step_start_llm (env.settings.assistant_name ++ " (Final)")
                ls.engine.messages],
        llm_calls := ls.llm_calls ++ [(ls.engine.messages, none)] }
      match env.llm ls1.call_idx with
      | .error e =>
          { ls1 with call_idx := ls1.call_idx + 1,
                     events := ls1.events
                       ++ [Event.error ("Final LLM Error: " ++ e)] }
      | .ok c =>
          let msg := c.message
          let eng := { ls1.engine with
            messages := ls1.engine.messages ++ [msg.model_dump] }
          let eng2 := store_message eng "assistant"
            (some (py_str_or msg.content ""))
          { ls1 with call_idx := ls1.call_idx + 1,
                     engine := eng2,
                     events := ls1.events
                       ++ usage_events env ls1.engine.messages c
                       ++ [Event.step_output msg.content,
                           Event.message msg.content] }
    else ls

/-- The observable outcome of one `process_turn` call. -/
structure TurnResult where
  events : List Event
  engine : EngineState
  llm_calls : List (List Message × Option (List ToolDef))
  dispatches : List Dispatch

/-- `ChatEngine.process_turn` (engine.py lines 142-352): aggregate the tool
catalog once, run the bounded ReAct loop, then the final fallback.  (The
engine wraps each `ToolDef` into an OpenAI function-schema dict; only the
names are observed downstream, so the wrapper is elided.  The aggregation
itself is total — per-server failures are swallowed inside
`MCPClientWrapper.list_tools` — so the engine's `Failed to list tools`
branch is unreachable in the model.) -/
def process_turn (env : Env) (mcp0 : MCPState) (st : EngineState)
    (max_turns : Nat) : TurnResult :=
  let lt := mcp_list_tools mcp0
  let ls0 : LoopState :=
    { engine := st, call_idx := 0, pop_idx := 0, events := [],
      llm_calls := [], dispatches := [] }
  let r := run_loop env lt.2 lt.1 max_turns ls0
  let ls := if r.2 then r.1 else final_fallback env r.1
  { events := ls.events, engine := ls.engine, llm_calls := ls.llm_calls,
    dispatches := ls.dispatches }

/-- One inbound sampling message (`params.messages` entry): a role plus a
content block whose `type` tag decides whether it is kept. -/
structure SamplingMessage where
  role : String
  content_type : String
  text : String
deriving DecidableEq

/-- The fields of `CreateMessageRequestParams` read by `handle_sampling`. -/
structure SamplingParams where
  systemPrompt : Option String
  messages : List SamplingMessage
  maxTokens : Option Nat
  temperature : Option Int
deriving DecidableEq

/-- The centrally configured sampling defaults (`settings.sampling`).
`ollama_options` stands for the dict returned by `to_ollama_options`. -/
structure SamplingDefaults where
  max_tokens : Option Nat
  temperature : Option Int
  top_p : Option Int
  ollama_options : List (String × String)

/-- The keyword arguments assembled by `handle_sampling` for the LLM call
(mcp_client.py lines 186-204): request hints override defaults, each key
present only when its value is not `None`. -/
structure SamplingKwargs where
  max_tokens : Option Nat
  temperature : Option Int
  top_p : Option Int
  extra_body : Option (List (String × String))
deriving DecidableEq

/-- Keyword-argument assembly of `handle_sampling` (mcp_client.py lines
187-204). -/
def sampling_kwargs (d : SamplingDefaults) (p : SamplingParams) :
    SamplingKwargs :=
  { max_tokens := match p.maxTokens with
                  | some m => some m
                  | none => d.max_tokens,
    temperature := match p.temperature with
                   | some t => some t
                   | none => d.temperature,
    top_p := d.top_p,
    extra_body := if d.ollama_options.isEmpty then none
                  else some d.ollama_options }

/-- Message conversion of `handle_sampling` (mcp_client.py lines 174-184):
an optional system prompt (Python truthiness, so `""` is dropped) followed
by the text-typed turns; non-text content is dropped. -/
def sampling_openai_messages (p : SamplingParams) : List Message :=
  (match p.systemPrompt with
   | some sp => if sp = "" then [] else
       [{ role := "system", content := some sp }]
   | none => []) ++
  (p.messages.filter (fun m => m.content_type = "text")).map
    (fun m => { role := m.role, content := some m.text })

/-- Environment of the sampling bridge: the shared LLM client (the oracle
returns `choices[0].message.content` of the completion, or the message of
whatever the call raised), its model identifier, and the token-accounting
settings. -/
structure SamplingEnv where
  chat_completion : List Message → SamplingKwargs → Except String (Option String)
  model : String
  token_usage_enabled : Bool
  defaults : SamplingDefaults
  count_messages : List Message → Nat
  count_text : String → Nat

/-- The fields of `types.CreateMessageResult` built by `handle_sampling`
(content is always a single `TextContent`). -/
structure CreateMessageResult where
  role : String
  content_text : String
  model : String
  stopReason : String
deriving DecidableEq

/-- Message of the validation error raised by
`types.TextContent(type="text", text=None)` when the completion content is
`None`; the pydantic wording stands in for the library's exact text, which
no claim depends on. -/
def text_none_validation_message : String :=
  "1 validation error for TextContent"

/-- `MCPClientWrapper.handle_sampling` (mcp_client.py lines 170-239):
convert the request, assemble kwargs, call the LLM, and return a
`CreateMessageResult`; the whole LLM interaction is inside a try/except
that converts any failure into a result with the error text and stop
reason `"error"`.  The returned list is what gets appended to the
sampling-usage buffer (note the buffer append happens before the result
object is built, so it survives even the `None`-content validation
failure). -/
def handle_sampling (env : SamplingEnv) (p : SamplingParams) :
    CreateMessageResult × List Event :=
  let msgs := sampling_openai_messages p
  let kwargs := sampling_kwargs env.defaults p
  match env.chat_completion msgs kwargs with
  | .error e =>
      ({ role := "assistant", content_text := "Error during sampling: " ++ e,
         model := env.model, stopReason := "error" }, [])
  | .ok content =>
      let usage_buf :=
        if env.token_usage_enabled then
          let pt := env.count_messages msgs
          let ct := env.count_text (py_str_or content "")
          [Event.usage pt ct (pt + ct) "mcp_sampling" "local"]
        else []
      match content with
      | some text =>
          ({ role := "assistant", content_text := text, model := env.model,
             stopReason := "end_turn" }, usage_buf)
      | none =>
          ({ role := "assistant",
             content_text := "Error during sampling: "
               ++ text_none_validation_message,
             model := env.model, stopReason := "error" }, usage_buf)

/-- One row of the `messages` table.  `id` is the AUTOINCREMENT primary
key; `created_at` is the textual timestamp written by `_utc_now`. -/
structure MsgRow where
  id : Nat
  conversation_id : String
  role : String
  content : String
  created_at : String
deriving DecidableEq

/-- One row of the `summaries` table (`conversation_id` is the primary
key). -/
structure SummaryRow where
  conversation_id : String
  summary : String
  updated_at : String
deriving DecidableEq

/-- One row of the `conversations` table. -/
structure ConvRow where
  id : String
  title : String
  created_at : String
  updated_at : String
  is_persistent : Bool
deriving DecidableEq

/-- The three tables of `MemoryStore`, plus the next AUTOINCREMENT value of
the `messages` table.  Row lists are in physical insertion order. -/
structure StoreState where
  next_id : Nat
  msg_rows : List MsgRow
  summaries : List SummaryRow
  conversations : List ConvRow
deriving DecidableEq

/-- `MemoryStore.touch_conversation` (memory_store.py lines 132-138):
bump `updated_at` of one conversation row. -/
def touch_conversation (s : StoreState) (cid now : String) : StoreState :=
  let convs := s.conversations.map
    (fun c => if c.id = cid then { c with updated_at := now } else c)
  { s with conversations := convs }

/-- `MemoryStore.add_message` (memory_store.py lines 196-207): insert a row
with the next AUTOINCREMENT id and the given timestamp, then touch the
conversation.  The timestamp is a parameter because `_utc_now` reads the
clock. -/
def add_message (s : StoreState) (cid role content now : String) : StoreState :=
  let row : MsgRow :=
    { id := s.next_id, conversation_id := cid, role := role,
      content := content, created_at := now }
  let s1 : StoreState :=
    { s with msg_rows := s.msg_rows ++ [row], next_id := s.next_id + 1 }
  touch_conversation s1 cid now

/-- Insertion into a list sorted by `id` (the comparison SQLite applies for
`ORDER BY id ASC`). -/
def insert_by_id (r : MsgRow) : List MsgRow → List MsgRow
  | [] => [r]
  | x :: xs => if r.id ≤ x.id then r :: x :: xs else x :: insert_by_id r xs

/-- Sorting by `id` (insertion sort; stable, matching `ORDER BY id ASC`). -/
def sort_by_id (l : List MsgRow) : List MsgRow := l.foldr insert_by_id []

/-- `MemoryStore.get_messages` (memory_store.py lines 183-194): the
`(role, content, created_at)` columns of the conversation's rows ordered by
`id` ascending. -/
def get_messages (s : StoreState) (cid : String) :
    List (String × String × String) :=
  (sort_by_id (s.msg_rows.filter (fun r => r.conversation_id = cid))).map
    (fun r => (r.role, r.content, r.created_at))

/-- `MemoryStore.save_summary` (memory_store.py lines 217-230): `INSERT …
ON CONFLICT(conversation_id) DO UPDATE`, i.e. update the existing keyed row
in place or append a fresh one. -/
def save_summary (s : StoreState) (cid summary now : String) : StoreState :=
  if s.summaries.any (fun r => r.conversation_id = cid) then
    let rows := s.summaries.map
      (fun r =>
        if r.conversation_id = cid then
          { r with summary := summary, updated_at := now }
        else r)
    { s with summaries := rows }
  else
    { s with summaries := s.summaries ++ [⟨cid, summary, now⟩] }

/-- Well-formedness of the `messages` table as SQLite maintains it: every
row id is below the AUTOINCREMENT counter and physical order agrees with
id order. -/
def StoreInv (s : StoreState) : Prop :=
  (∀ r ∈ s.msg_rows, r.id < s.next_id) ∧
  s.msg_rows.Pairwise (fun a b => a.id < b.id)

/-- Key uniqueness of the `summaries` table (`conversation_id` is its
primary key). -/
def summary_unique (s : StoreState) : Prop :=
  s.summaries.Pairwise (fun a b => a.conversation_id ≠ b.conversation_id)

/-- One `add_message` call: target conversation, role, content, and the
timestamp `_utc_now` happened to produce. -/
structure AddCall where
  conversation_id : String
  role : String
  content : String
  created_at : String
deriving DecidableEq

/-- A sequence of `add_message` calls applied in order. -/
def run_adds (s : StoreState) (calls : List AddCall) : StoreState :=
  calls.foldl
    (fun st c => add_message st c.conversation_id c.role c.content c.created_at)
    s

/-! ## Concrete instances used by witnesses and counterexamples -/

/-- Settings with local token accounting off. -/
def demo_settings : Settings :=
  { token_usage_enabled := false, assistant_name := "AI" }

/-- A 501-character tool output (strictly longer than the 500-character
display budget). -/
def big_out : String := String.mk (List.replicate 501 'a')

/-- A server exposing one tool `fetch` that returns `big_out`. -/
def fetch_session : ServerSession :=
  { name := "srv",
    tools_reply := .ok [{ name := "fetch", description := "", input_schema := "" }],
    call_tool := fun _ _ => .ok { content := .content_other big_out } }

/-- A server exposing only `search_arxiv`. -/
def arxiv_session : ServerSession :=
  { name := "srv",
    tools_reply := .ok
      [{ name := "search_arxiv", description := "", input_schema := "" }],
    call_tool := fun _ _ => .ok { content := .content_other "RES" } }

/-- Gateway with the `fetch` server. -/
def mcp_one : MCPState := { sessions := [fetch_session], tool_to_server := [] }

/-- Gateway with the `fetch` server after `list_tools` rebuilt the routing
map (the state in which `call_tool` is reached inside a turn). -/
def mcp_one_routed : MCPState :=
  { sessions := [fetch_session], tool_to_server := [("fetch", "srv")] }

/-- Gateway with the `search_arxiv` server. -/
def mcp_arxiv : MCPState :=
  { sessions := [arxiv_session], tool_to_server := [] }

/-- Gateway with no connected servers. -/
def mcp_empty : MCPState := { sessions := [], tool_to_server := [] }

/-- A model-requested call to `fetch` with empty JSON arguments. -/
def req_fetch : ToolCall :=
  { id := "c1", function := { name := "fetch", arguments := "\x7b\x7d" } }

/-- A model-requested call to `fetch` whose arguments are the JSON array
`[1]` — valid JSON, but not a mapping. -/
def req_fetch_list : ToolCall :=
  { id := "c4", function := { name := "fetch", arguments := "[1]" } }

/-- A model-requested call to the hallucinated name `search`. -/
def req_search : ToolCall :=
  { id := "c2", function := { name := "search", arguments := "nonsense" } }

/-- A model-requested call to an unknown tool `lookup`. -/
def req_unknown : ToolCall :=
  { id := "c3", function := { name := "lookup", arguments := "\x7b\x7d" } }

/-- A completion whose reply is one `fetch` tool call. -/
def comp_tool_req : Completion :=
  { message := { content := none, tool_calls := some [req_fetch] },
    usage := none }

/-- A completion whose reply is one `search` tool call. -/
def comp_search_req : Completion :=
  { message := { content := none, tool_calls := some [req_search] },
    usage := none }

/-- A completion whose reply is one `lookup` tool call. -/
def comp_unknown_req : Completion :=
  { message := { content := none, tool_calls := some [req_unknown] },
    usage := none }

/-- A plain final answer, no tool calls. -/
def comp_done : Completion :=
  { message := { content := some "done", tool_calls := none }, usage := none }

/-- Environment builder with trivial parsers/counters and no buffered
sampling events. -/
def env_base (llm : Nat → Except String Completion) : Env :=
  { llm := llm, pop_sampling := fun _ => [], json_loads := fun _ => none,
    literal_eval := fun _ => none, count_messages := fun _ => 0,
    count_text := fun _ => 0, settings := demo_settings }

/-- LLM script: one tool-requesting reply, then a plain final answer. -/
def env_big : Env :=
  env_base (fun k => match k with
    | 0 => .ok comp_tool_req
    | 1 => .ok comp_done
    | _ => .error "unreachable")

/-- Like `env_big`, but `json.loads` succeeds on `"[1]"` with a JSON
array. -/
def env_json_list : Env :=
  { env_big with json_loads := fun s =>
      if s = "[1]" then some (.pylist [.pyint 1]) else none }

/-- LLM script: one tool-requesting reply, then every call raises. -/
def env_final_fail : Env :=
  env_base (fun k => match k with
    | 0 => .ok comp_tool_req
    | _ => .error "boom")

/-- LLM script: one `search`-requesting reply, then a plain final answer. -/
def env_search : Env :=
  env_base (fun k => match k with
    | 0 => .ok comp_search_req
    | _ => .ok comp_done)

/-- LLM script: one unknown-tool reply, then a plain final answer. -/
def env_unknown : Env :=
  env_base (fun k => match k with
    | 0 => .ok comp_unknown_req
    | _ => .ok comp_done)

/-- Engine state with persistence enabled for conversation `cid`. -/
def st_demo : EngineState :=
  { messages := [{ role := "system", content := some "sys" },
                 { role := "user", content := some "hi" }],
    persistent_enabled := true, has_memory_store := true,
    conversation_id := some "cid", memory_dirty := false, store_log := [] }

/-- Sampling defaults for the bridge witnesses. -/
def sdefaults : SamplingDefaults :=
  { max_tokens := some 256, temperature := some 1, top_p := some 1,
    ollama_options := [] }

/-- Sampling environment whose LLM call raises. -/
def senv_fail : SamplingEnv :=
  { chat_completion := fun _ _ => .error "down", model := "m",
    token_usage_enabled := false, defaults := sdefaults,
    count_messages := fun _ => 0, count_text := fun _ => 0 }

/-- Sampling environment whose LLM call returns text `"hi"`. -/
def senv_ok : SamplingEnv :=
  { senv_fail with chat_completion := fun _ _ => .ok (some "hi") }

/-- A small inbound sampling request. -/
def sparams : SamplingParams :=
  { systemPrompt := some "s",
    messages := [{ role := "user", content_type := "text", text := "q" }],
    maxTokens := none, temperature := none }

/-- An empty store holding one conversation row `c`. -/
def demo_store : StoreState :=
  { next_id := 0, msg_rows := [], summaries := [],
    conversations := [{ id := "c", title := "", created_at := "T",
                        updated_at := "T", is_persistent := true }] }

/-- Three message inserts into conversation `c`, all with the same
(colliding) timestamp. -/
def demo_calls : List AddCall :=
  [{ conversation_id := "c", role := "user", content := "m1", created_at := "T" },
   { conversation_id := "c", role := "assistant", content := "m2", created_at := "T" },
   { conversation_id := "c", role := "user", content := "m3", created_at := "T" }]

/-! ## Helper lemmas (shared) -/

theorem insert_by_id_of_le (r : MsgRow) (l : List MsgRow)
    (h : ∀ x ∈ l, r.id ≤ x.id) : insert_by_id r l = r :: l := by
  cases l with
  | nil => rfl
  | cons x xs =>
      simp only [insert_by_id]
      rw [if_pos (h x (List.mem_cons_self x xs))]

theorem sort_by_id_of_sorted (l : List MsgRow)
    (h : l.Pairwise (fun a b => a.id < b.id)) : sort_by_id l = l := by
  induction l with
  | nil => rfl
  | cons x xs ih =>
      have hx : ∀ y ∈ xs, x.id ≤ y.id := fun y hy =>
        Nat.le_of_lt ((List.pairwise_cons.mp h).1 y hy)
      have hxs := (List.pairwise_cons.mp h).2
      show insert_by_id x (sort_by_id xs) = x :: xs
      rw [ih hxs, insert_by_id_of_le x xs hx]

theorem add_message_msg_rows (s : StoreState) (cid role content now : String) :
    (add_message s cid role content now).msg_rows =
      s.msg_rows ++ [⟨s.next_id, cid, role, content, now⟩] := rfl

theorem add_message_next_id (s : StoreState) (cid role content now : String) :
    (add_message s cid role content now).next_id = s.next_id + 1 := rfl

theorem StoreInv_add (s : StoreState) (cid role content now : String)
    (h : StoreInv s) : StoreInv (add_message s cid role content now) := by
  obtain ⟨hb, hp⟩ := h
  constructor
  · intro r hr
    rw [add_message_msg_rows] at hr
    rw [add_message_next_id]
    rcases List.mem_append.mp hr with h1 | h1
    · exact Nat.lt_succ_of_lt (hb r h1)
    · simp only [List.mem_singleton] at h1
      subst h1
      exact Nat.lt_succ_self _
  · rw [add_message_msg_rows]
    refine List.pairwise_append.mpr ⟨hp, List.pairwise_singleton _ _, ?_⟩
    intro a ha b hb2
    simp only [List.mem_singleton] at hb2
    subst hb2
    exact hb a ha

theorem get_messages_filter (s : StoreState) (cid : String) (h : StoreInv s) :
    get_messages s cid =
      (s.msg_rows.filter (fun r => r.conversation_id = cid)).map
        (fun r => (r.role, r.content, r.created_at)) := by
  unfold get_messages
  rw [sort_by_id_of_sorted _ (List.Pairwise.filter _ h.2)]

theorem get_messages_add (s : StoreState) (cid role content now : String)
    (h : StoreInv s) (cid2 : String) :
    get_messages (add_message s cid role content now) cid2 =
      get_messages s cid2 ++
        (if cid = cid2 then [(role, content, now)] else []) := by
  rw [get_messages_filter _ _ (StoreInv_add s cid role content now h),
      get_messages_filter _ _ h, add_message_msg_rows, List.filter_append,
      List.map_append]
  congr 1
  by_cases hc : cid = cid2
  · subst hc
    simp [List.filter]
  · simp [List.filter, hc]

/-! ## C7: `get_messages` returns rows in insertion order -/

/-- C7. For any well-formed store and any sequence of `add_message` calls
(with arbitrary, possibly colliding, timestamps), `get_messages` for a
conversation returns its previous rows followed by the new calls targeting
that conversation, in exactly the order the calls were made: ordering comes
from the AUTOINCREMENT insertion sequence (`ORDER BY id ASC`), never from
the timestamps.  In particular, N calls on a fresh conversation return
exactly N rows in insertion order. -/
theorem get_messages_insertion_order (s : StoreState) (h : StoreInv s)
    (calls : List AddCall) (cid : String) :
    get_messages (run_adds s calls) cid =
      get_messages s cid ++
        ((calls.filter (fun a => a.conversation_id = cid)).map
          (fun a => (a.role, a.content, a.created_at))) := by
  induction calls generalizing s with
  | nil => simp [run_adds]
  | cons c cs ih =>
      have step : run_adds s (c :: cs) =
          run_adds (add_message s c.conversation_id c.role c.content
            c.created_at) cs := rfl
      rw [step, ih _ (StoreInv_add _ _ _ _ _ h),
          get_messages_add s _ _ _ _ h cid]
      by_cases hc : c.conversation_id = cid
      · simp [List.filter, hc]
      · simp [List.filter, hc]

/-- C7 witness: three inserts into one conversation, all carrying the same
timestamp `"T"`, come back as exactly those three rows in call order. -/
theorem get_messages_insertion_order_witness :
    StoreInv demo_store ∧
    get_messages (run_adds demo_store demo_calls) "c" =
      get_messages demo_store "c" ++
        ((demo_calls.filter (fun a => a.conversation_id = "c")).map
          (fun a => (a.role, a.content, a.created_at))) :=
  ⟨⟨by intro r hr; simp [demo_store] at hr, by simp [demo_store]⟩,
   get_messages_insertion_order demo_store
     ⟨by intro r hr; simp [demo_store] at hr, by simp [demo_store]⟩
     demo_calls "c"⟩

/-! ## C8: `save_summary` upsert -/

theorem filter_eq_nil_of_keys_ne (l : List SummaryRow) (cid : String)
    (h : ∀ r ∈ l, r.conversation_id ≠ cid) :
    l.filter (fun r => r.conversation_id = cid) = [] := by
  rw [List.filter_eq_nil_iff]
  intro a ha
  simp [h a ha]

theorem map_upd_of_keys_ne (cid t ts : String) (rs : List SummaryRow)
    (h : ∀ x ∈ rs, x.conversation_id ≠ cid) :
    rs.map (fun r =>
        if r.conversation_id = cid then
          { r with summary := t, updated_at := ts }
        else r) = rs := by
  induction rs with
  | nil => rfl
  | cons r rest ih =>
      simp only [List.map_cons, List.cons.injEq]
      refine ⟨?_, ih (fun x hx => h x (List.mem_cons_of_mem r hx))⟩
      rw [if_neg (h r (List.mem_cons_self r rest))]

theorem filter_map_upd (cid t ts : String) (l : List SummaryRow)
    (hu : l.Pairwise (fun a b => a.conversation_id ≠ b.conversation_id))
    (hex : l.any (fun r => r.conversation_id = cid) = true) :
    (l.map (fun r =>
        if r.conversation_id = cid then
          { r with summary := t, updated_at := ts }
        else r)).filter (fun r => r.conversation_id = cid) = [⟨cid, t, ts⟩] := by
  induction l with
  | nil => simp at hex
  | cons r rest ih =>
      obtain ⟨hr, hrest⟩ := List.pairwise_cons.mp hu
      by_cases hk : r.conversation_id = cid
      · have tail_ne : ∀ x ∈ rest, x.conversation_id ≠ cid := by
          intro x hx hc
          exact hr x hx (hk.trans hc.symm)
        rw [List.map_cons, if_pos hk,
            map_upd_of_keys_ne cid t ts rest tail_ne]
        have hrow : ({ r with summary := t, updated_at := ts } : SummaryRow)
            = ⟨cid, t, ts⟩ := by
          cases r
          simp_all
        rw [hrow]
        simp only [List.filter_cons]
        rw [if_pos (by simp), filter_eq_nil_of_keys_ne rest cid tail_ne]
      · have hex2 : rest.any (fun r => r.conversation_id = cid) = true := by
          rcases List.any_eq_true.mp hex with ⟨x, hx, hxk⟩
          rcases List.mem_cons.mp hx with h1 | h1
          · subst h1; simp [hk] at hxk
          · exact List.any_eq_true.mpr ⟨x, h1, hxk⟩
        rw [List.map_cons, if_neg hk, List.filter_cons,
            if_neg (by simpa using hk)]
        exact ih hrest hex2

theorem unique_map_upd (cid t ts : String) (l : List SummaryRow)
    (hu : l.Pairwise (fun a b => a.conversation_id ≠ b.conversation_id)) :
    (l.map (fun r =>
        if r.conversation_id = cid then
          { r with summary := t, updated_at := ts }
        else r)).Pairwise (fun a b => a.conversation_id ≠ b.conversation_id) := by
  rw [List.pairwise_map]
  refine hu.imp_of_mem ?_
  intro a b _ _ hab
  by_cases ha : a.conversation_id = cid <;>
    by_cases hb : b.conversation_id = cid <;>
      simp_all

theorem save_summary_once (s : StoreState) (cid t ts : String)
    (h : summary_unique s) :
    (save_summary s cid t ts).summaries.filter
        (fun r => r.conversation_id = cid) = [⟨cid, t, ts⟩] ∧
    summary_unique (save_summary s cid t ts) := by
  unfold save_summary summary_unique
  unfold summary_unique at h
  by_cases hex : s.summaries.any (fun r => r.conversation_id = cid)
  · rw [if_pos hex]
    exact ⟨filter_map_upd cid t ts s.summaries h hex,
           unique_map_upd cid t ts s.summaries h⟩
  · rw [if_neg hex]
    have hne : ∀ x ∈ s.summaries, x.conversation_id ≠ cid := by
      intro x hx hc
      exact hex (List.any_eq_true.mpr ⟨x, hx, by simp [hc]⟩)
    constructor
    · simp only [List.filter_append,
        filter_eq_nil_of_keys_ne s.summaries cid hne]
      simp [List.filter]
    · refine List.pairwise_append.mpr
        ⟨h, List.pairwise_singleton _ _, ?_⟩
      intro a ha b hb
      simp only [List.mem_singleton] at hb
      subst hb
      exact hne a ha

/-- C8. Calling `save_summary` twice for the same conversation id on a
store whose `summaries` table satisfies its primary-key invariant leaves
exactly one summary row for that id, carrying the second call's text and
timestamp (upsert, last write wins), and the one-row-per-conversation
invariant is preserved. -/
theorem save_summary_upsert (s : StoreState) (cid t1 ts1 t2 ts2 : String)
    (h : summary_unique s) :
    (save_summary (save_summary s cid t1 ts1) cid t2 ts2).summaries.filter
        (fun r => r.conversation_id = cid) = [⟨cid, t2, ts2⟩] ∧
    summary_unique (save_summary (save_summary s cid t1 ts1) cid t2 ts2) :=
  save_summary_once (save_summary s cid t1 ts1) cid t2 ts2
    (save_summary_once s cid t1 ts1 h).2

/-- C8 witness: two saves on the empty demo store leave one row with the
second text. -/
theorem save_summary_upsert_witness :
    (save_summary (save_summary demo_store "c" "first" "T1") "c" "second"
        "T2").summaries.filter (fun r => r.conversation_id = "c")
      = [⟨"c", "second", "T2"⟩] ∧
    summary_unique (save_summary (save_summary demo_store "c" "first" "T1")
      "c" "second" "T2") :=
  save_summary_upsert demo_store "c" "first" "T1" "second" "T2"
    (by simp [demo_store, summary_unique])

/-! ## C10: `_store_message` skips empty content -/

/-- C10. `_store_message` with `None` content or with the empty string
leaves the engine state — in particular the record of store writes and the
dirty flag — completely unchanged, whatever the persistence settings and
conversation id are (so also when persistence is enabled and an id is
set).  Since the final assistant reply is stored via
`_store_message("assistant", msg.content or "")`, an empty final reply is
never written to storage. -/
theorem store_message_empty_noop :
    (∀ (s : EngineState) (role : String), store_message s role none = s) ∧
    (∀ (s : EngineState) (role : String), store_message s role (some "") = s) := by
  constructor <;>
    · intro s role
      unfold store_message
      split
      · rfl
      · simp [py_opt_truthy]

/-! ## C5: the sampling bridge never raises past its boundary -/

/-- C5. `handle_sampling` is a total function of the request and the LLM
outcome: when the LLM interaction fails (the oracle returns the raised
error's message) the result is a well-formed `CreateMessageResult` whose
text is the error message and whose stop reason is `"error"`; when it
succeeds with generated text, the result carries that text, the client's
model identifier, and the normal `"end_turn"` stop reason. -/
theorem handle_sampling_boundary (env : SamplingEnv) (p : SamplingParams) :
    (∀ e, env.chat_completion (sampling_openai_messages p)
          (sampling_kwargs env.defaults p) = .error e →
      (handle_sampling env p).1 =
        { role := "assistant", content_text := "Error during sampling: " ++ e,
          model := env.model, stopReason := "error" }) ∧
    (∀ t, env.chat_completion (sampling_openai_messages p)
          (sampling_kwargs env.defaults p) = .ok (some t) →
      (handle_sampling env p).1 =
        { role := "assistant", content_text := t, model := env.model,
          stopReason := "end_turn" }) := by
  constructor
  · intro e he
    simp only [handle_sampling, he]
  · intro t ht
    simp only [handle_sampling, ht]

/-- C5 witness: a failing and a succeeding sampling environment, applied
at a concrete request. -/
theorem handle_sampling_boundary_witness :
    (handle_sampling senv_fail sparams).1 =
      { role := "assistant", content_text := "Error during sampling: down",
        model := "m", stopReason := "error" } ∧
    (handle_sampling senv_ok sparams).1 =
      { role := "assistant", content_text := "hi", model := "m",
        stopReason := "end_turn" } :=
  ⟨(handle_sampling_boundary senv_fail sparams).1 "down" rfl,
   (handle_sampling_boundary senv_ok sparams).2 "hi" rfl⟩

/-! ## Dispatch-argument lemmas (shared by C3 and C9) -/

theorem mcp_call_tool_dispatches (m : MCPState) (name : String) (args : PyVal) :
    ∀ d ∈ (mcp_call_tool m name args).2, d.tool = name ∧ d.args = args := by
  intro d hd
  unfold mcp_call_tool at hd
  split at hd
  · simp at hd
  · split at hd
    · simp at hd
    · split at hd
      · simp at hd
      · simp only [List.mem_singleton] at hd
        subst hd
        exact ⟨rfl, rfl⟩

theorem process_tool_call_dispatch_args (env : Env) (mcp : MCPState)
    (tools : List ToolDef) (pop_idx : Nat) (st : EngineState) (tc : ToolCall) :
    ∀ d ∈ (process_tool_call env mcp tools pop_idx st tc).dispatches,
      d.args = parse_tool_args env.json_loads env.literal_eval
        tc.function.arguments := by
  intro d hd
  simp only [process_tool_call] at hd
  split at hd
  · split at hd <;>
      · simp only at hd
        exact (mcp_call_tool_dispatches mcp _ _ d hd).2
  · simp at hd

/-! ## C3: malformed arguments degrade to an empty mapping -/

/-- C3. Argument parsing never escapes the parsing step: it is a total
function, and whenever `json.loads` fails (returns no value because it
raised), the outcome is always a mapping — the literal-parse result exactly
when that parse succeeds with a mapping, and the empty mapping whenever the
literal parse fails or yields a non-mapping — and any tool call actually
dispatched in that situation carries that mapping (so the loop proceeds
with `{}` when both parses fail). -/
theorem parse_args_graceful :
    (∀ jl le s, jl s = none → isDict (parse_tool_args jl le s) = true) ∧
    (∀ jl le s v, jl s = none → le s = some v → isDict v = true →
      parse_tool_args jl le s = v) ∧
    (∀ jl le s, jl s = none → le s = none →
      parse_tool_args jl le s = PyVal.pydict []) ∧
    (∀ jl le s v, jl s = none → le s = some v → isDict v = false →
      parse_tool_args jl le s = PyVal.pydict []) ∧
    (∀ env mcp tools pop_idx st tc,
      env.json_loads tc.function.arguments = none →
      env.literal_eval tc.function.arguments = none →
      ∀ d ∈ (process_tool_call env mcp tools pop_idx st tc).dispatches,
        d.args = PyVal.pydict []) := by
  refine ⟨?_, ?_, ?_, ?_, ?_⟩
  · intro jl le s hj
    cases hl : le s with
    | none => simp [parse_tool_args, hj, hl, isDict]
    | some v =>
        by_cases hv : isDict v = true
        · simp [parse_tool_args, hj, hl, hv]
        · simp only [Bool.not_eq_true] at hv
          simp only [isDict] at hv
          simp [parse_tool_args, hj, hl, hv, isDict]
  · intro jl le s v hj hl hv
    simp [parse_tool_args, hj, hl, hv]
  · intro jl le s hj hl
    simp [parse_tool_args, hj, hl]
  · intro jl le s v hj hl hv
    simp [parse_tool_args, hj, hl, hv]
  · intro env mcp tools pop_idx st tc hj hl d hd
    rw [process_tool_call_dispatch_args env mcp tools pop_idx st tc d hd]
    simp [parse_tool_args, hj, hl]

/-- C3 witness: both parsers fail on a concrete argument blob; the parse
yields the empty mapping and the dispatched `fetch` call carries it. -/
theorem parse_args_graceful_witness :
    parse_tool_args (fun _ => none) (fun _ => none) "oops" = PyVal.pydict [] ∧
    (∀ d ∈ (process_tool_call env_big mcp_one_routed
        [{ name := "fetch", description := "", input_schema := "" }]
        0 st_demo req_fetch).dispatches,
      d.args = PyVal.pydict []) :=
  ⟨parse_args_graceful.2.2.1 (fun _ => none) (fun _ => none) "oops" rfl rfl,
   parse_args_graceful.2.2.2.2 env_big mcp_one_routed
     [{ name := "fetch", description := "", input_schema := "" }]
     0 st_demo req_fetch rfl rfl⟩

/-! ## C9: successful JSON parses are passed through unchecked -/

/-- C9. When `json.loads` succeeds, its value is used as the arguments as
is — the must-be-a-mapping check guards only the literal-parse fallback —
and any dispatched call passes that value unchanged to the tool
dispatcher, even when it is not a mapping. -/
theorem json_args_passed_unchanged :
    (∀ jl le s v, jl s = some v → parse_tool_args jl le s = v) ∧
    (∀ env mcp tools pop_idx st tc v,
      env.json_loads tc.function.arguments = some v →
      ∀ d ∈ (process_tool_call env mcp tools pop_idx st tc).dispatches,
        d.args = v) := by
  constructor
  · intro jl le s v hj
    simp [parse_tool_args, hj]
  · intro env mcp tools pop_idx st tc v hj d hd
    rw [process_tool_call_dispatch_args env mcp tools pop_idx st tc d hd]
    simp [parse_tool_args, hj]

/-- C9 witness: arguments parsing as the JSON array `[1]` (not a mapping)
are dispatched unchanged; the concrete dispatch list shows the call was in
fact made with that array. -/
theorem json_args_passed_unchanged_witness :
    (process_tool_call env_json_list mcp_one_routed
        [{ name := "fetch", description := "", input_schema := "" }]
        0 st_demo req_fetch_list).dispatches =
      [⟨"srv", "fetch", PyVal.pylist [PyVal.pyint 1]⟩] ∧
    (∀ d ∈ (process_tool_call env_json_list mcp_one_routed
        [{ name := "fetch", description := "", input_schema := "" }]
        0 st_demo req_fetch_list).dispatches,
      d.args = PyVal.pylist [PyVal.pyint 1]) :=
  ⟨rfl,
   json_args_passed_unchanged.2 env_json_list mcp_one_routed
     [{ name := "fetch", description := "", input_schema := "" }]
     0 st_demo req_fetch_list (PyVal.pylist [PyVal.pyint 1]) rfl⟩

/-! ## Loop-shape lemmas (shared by C1, C2, C4, C6) -/

theorem process_tool_call_engine (env : Env) (mcp : MCPState)
    (tools : List ToolDef) (pop_idx : Nat) (st : EngineState) (tc : ToolCall) :
    ∃ c, (process_tool_call env mcp tools pop_idx st tc).engine =
      { st with messages := st.messages ++ [mk_tool_message tc.id c] } := by
  simp only [process_tool_call]
  split
  · split
    · exact ⟨_, rfl⟩
    · exact ⟨_, rfl⟩
  · exact ⟨_, rfl⟩

theorem process_tool_call_events_benign (env : Env) (mcp : MCPState)
    (tools : List ToolDef) (pop_idx : Nat) (st : EngineState) (tc : ToolCall) :
    ∀ e ∈ (process_tool_call env mcp tools pop_idx st tc).events,
      is_message_event e = false ∧ is_error_event e = false := by
  intro e he
  simp only [process_tool_call] at he
  split at he
  · split at he
    · simp only [List.append_assoc, List.mem_append, List.mem_singleton,
        List.mem_cons, List.not_mem_nil, or_false] at he
      rcases he with he | he | he
      · subst he; exact ⟨rfl, rfl⟩
      · split at he
        · simp at he
        · simp only [List.mem_singleton] at he
          subst he; exact ⟨rfl, rfl⟩
      · subst he; exact ⟨rfl, rfl⟩
    · simp only [List.append_assoc, List.mem_append, List.mem_singleton,
        List.mem_cons, List.not_mem_nil, or_false, List.mem_map] at he
      rcases he with he | he | he | ⟨u, _, he⟩
      · subst he; exact ⟨rfl, rfl⟩
      · split at he
        · simp at he
        · simp only [List.mem_singleton] at he
          subst he; exact ⟨rfl, rfl⟩
      · subst he; exact ⟨rfl, rfl⟩
      · subst he; exact ⟨rfl, rfl⟩
  · simp only [List.mem_cons, List.not_mem_nil, or_false] at he
    rcases he with he | he <;> (subst he; exact ⟨rfl, rfl⟩)

theorem run_tool_calls_spec (env : Env) (mcp : MCPState)
    (tools : List ToolDef) :
    ∀ (tcs : List ToolCall) (st : EngineState) (pop_idx : Nat),
      (∃ suffix : List Message,
        (run_tool_calls env mcp tools tcs st pop_idx).engine =
          { st with messages := st.messages ++ suffix } ∧
        suffix.length = tcs.length ∧
        (∀ m ∈ suffix, m.role = "tool")) ∧
      (∀ e ∈ (run_tool_calls env mcp tools tcs st pop_idx).events,
        is_message_event e = false ∧ is_error_event e = false) := by
  intro tcs
  induction tcs with
  | nil =>
      intro st pop_idx
      refine ⟨⟨[], ?_, rfl, by simp⟩, by simp [run_tool_calls]⟩
      simp [run_tool_calls]
  | cons tc rest ih =>
      intro st pop_idx
      obtain ⟨c, hc⟩ := process_tool_call_engine env mcp tools pop_idx st tc
      obtain ⟨⟨suffix, hs, hlen, hrole⟩, hbenign⟩ :=
        ih (process_tool_call env mcp tools pop_idx st tc).engine
          (process_tool_call env mcp tools pop_idx st tc).pop_idx
      constructor
      · refine ⟨mk_tool_message tc.id c :: suffix, ?_, by simp [hlen], ?_⟩
        · show (run_tool_calls env mcp tools rest _ _).engine = _
          rw [hs, hc]
          simp
        · intro m hm
          rcases List.mem_cons.mp hm with hm | hm
          · subst hm; rfl
          · exact hrole m hm
      · intro e he
        have he2 : e ∈ (process_tool_call env mcp tools pop_idx st tc).events
            ++ (run_tool_calls env mcp tools rest
                  (process_tool_call env mcp tools pop_idx st tc).engine
                  (process_tool_call env mcp tools pop_idx st tc).pop_idx).events :=
          he
        rcases List.mem_append.mp he2 with h3 | h3
        · exact process_tool_call_events_benign env mcp tools pop_idx st tc e h3
        · exact hbenign e h3

theorem usage_events_benign (env : Env) (m : List Message) (c : Completion) :
    ∀ e ∈ usage_events env m c,
      is_message_event e = false ∧ is_error_event e = false := by
  intro e he
  unfold usage_events at he
  split at he
  · simp only [List.mem_singleton] at he
    subst he; exact ⟨rfl, rfl⟩
  · split at he
    · simp only [List.mem_singleton] at he
      subst he; exact ⟨rfl, rfl⟩
    · simp at he

theorem filter_eq_nil_of_benign (p : Event → Bool) (l : List Event)
    (h : ∀ e ∈ l, p e = false) : l.filter p = [] := by
  rw [List.filter_eq_nil_iff]
  intro a ha
  simp [h a ha]

theorem getLast?_append_ne_nil {α : Type} (l l2 : List α) (h : l2 ≠ []) :
    (l ++ l2).getLast? = l2.getLast? := by
  rw [List.getLast?_append]
  cases h2 : l2.getLast? with
  | none => exact absurd (List.getLast?_eq_none_iff.mp h2) h
  | some a => rfl

theorem run_tool_calls_last_tool (env : Env) (mcp : MCPState)
    (tools : List ToolDef) (tcs : List ToolCall) (st : EngineState)
    (pop_idx : Nat) (h : tcs ≠ []) :
    ∃ m, (run_tool_calls env mcp tools tcs st pop_idx).engine.messages.getLast?
        = some m ∧ m.role = "tool" := by
  obtain ⟨⟨suffix, hs, hlen, hrole⟩, _⟩ :=
    run_tool_calls_spec env mcp tools tcs st pop_idx
  have hsuf : suffix ≠ [] := by
    intro h0
    rw [h0] at hlen
    exact h (List.length_eq_zero.mp hlen.symm)
  refine ⟨suffix.getLast hsuf, ?_, hrole _ (List.getLast_mem hsuf)⟩
  rw [hs]
  show (st.messages ++ suffix).getLast? = _
  rw [getLast?_append_ne_nil _ _ hsuf, List.getLast?_eq_getLast _ hsuf]

theorem run_loop_all_tool_calls (env : Env) (mcp : MCPState)
    (tools : List ToolDef) :
    ∀ (fuel : Nat) (ls : LoopState),
      (∀ j, j < fuel → ∃ c, env.llm (ls.call_idx + j) = .ok c ∧
          has_tool_calls c.message.tool_calls = true) →
      (run_loop env mcp tools fuel ls).2 = false ∧
      (run_loop env mcp tools fuel ls).1.call_idx = ls.call_idx + fuel ∧
      (run_loop env mcp tools fuel ls).1.llm_calls.length
        = ls.llm_calls.length + fuel ∧
      (run_loop env mcp tools fuel ls).1.events.filter is_message_event
        = ls.events.filter is_message_event ∧
      (run_loop env mcp tools fuel ls).1.events.filter is_error_event
        = ls.events.filter is_error_event ∧
      (0 < fuel →
        ∃ m, (run_loop env mcp tools fuel ls).1.engine.messages.getLast?
          = some m ∧ m.role = "tool") := by
  intro fuel
  induction fuel with
  | zero =>
      intro ls _
      exact ⟨rfl, rfl, rfl, rfl, rfl, fun h0 => absurd h0 (Nat.lt_irrefl 0)⟩
  | succ n ih =>
      intro ls h
      obtain ⟨c, hc0, htc⟩ := h 0 (Nat.succ_pos n)
      rw [Nat.add_zero] at hc0
      have h' : ∀ j, j < n → ∃ c2, env.llm (ls.call_idx + 1 + j) = .ok c2 ∧
          has_tool_calls c2.message.tool_calls = true := by
        intro j hj
        obtain ⟨c2, hc2, ht2⟩ := h (j + 1) (Nat.succ_lt_succ hj)
        refine ⟨c2, ?_, ht2⟩
        rwa [show ls.call_idx + (j + 1) = ls.call_idx + 1 + j from by omega]
          at hc2
      have hne : c.message.tool_calls.getD [] ≠ [] := by
        cases htcs : c.message.tool_calls with
        | none => rw [htcs] at htc; simp [has_tool_calls] at htc
        | some l =>
            cases l with
            | nil => rw [htcs] at htc; simp [has_tool_calls] at htc
            | cons a as => simp
      simp only [run_loop, hc0, htc, if_true]
      refine ⟨(ih _ h').1, ?_, ?_, ?_, ?_, ?_⟩
      · refine ((ih _ h').2.1).trans ?_
        show ls.call_idx + 1 + n = ls.call_idx + (n + 1)
        omega
      · refine ((ih _ h').2.2.1).trans ?_
        simp only [List.length_append, List.length_singleton]
        omega
      · rw [(ih _ h').2.2.2.1]
        simp only [List.append_assoc, List.filter_append]
        rw [filter_eq_nil_of_benign is_message_event _
              (fun e he => (usage_events_benign env _ _ e he).1),
            filter_eq_nil_of_benign is_message_event _
              (fun e he =>
                ((run_tool_calls_spec env mcp tools _ _ _).2 e he).1)]
        simp [is_message_event]
      · rw [(ih _ h').2.2.2.2.1]
        simp only [List.append_assoc, List.filter_append]
        rw [filter_eq_nil_of_benign is_error_event _
              (fun e he => (usage_events_benign env _ _ e he).2),
            filter_eq_nil_of_benign is_error_event _
              (fun e he =>
                ((run_tool_calls_spec env mcp tools _ _ _).2 e he).2)]
        simp [is_error_event]
      · intro _
        rcases Nat.eq_zero_or_pos n with hn | hn
        · subst hn
          exact run_tool_calls_last_tool env mcp tools _ _ _ hne
        · exact (ih _ h').2.2.2.2.2 hn

/-! ## C1 (corrected): the forced final model call -/

/-- C1 counterexample. The claim universally promises exactly one `message`
event whenever the budget is exhausted on tool calls, but says nothing
about the forced final call itself failing.  Here the single budgeted model
invocation requests a tool call (the claim's premise holds), the forced
final call is issued without a tool list, yet it raises, so the turn yields
an `error` event and zero `message` events. -/
theorem forced_final_counterexample :
    (env_final_fail.llm 0 = .ok comp_tool_req ∧
      has_tool_calls comp_tool_req.message.tool_calls = true) ∧
    (process_turn env_final_fail mcp_empty st_demo 1).llm_calls.length = 2 ∧
    (process_turn env_final_fail mcp_empty st_demo 1).events.filter
      is_message_event = [] ∧
    Event.error "Final LLM Error: boom"
      ∈ (process_turn env_final_fail mcp_empty st_demo 1).events := by
  refine ⟨⟨rfl, rfl⟩, rfl, rfl, ?_⟩
  decide

/-- C1 (amended). If every one of the `max_turns` budgeted model
invocations succeeds and requests tool calls (so the budget is exhausted
while the most recent history message has role `"tool"`), then exactly one
additional forced final model call is issued with no tool list offered,
and — provided that forced call returns successfully — the turn yields
exactly one `message` event, carrying the final reply, rather than ending
on a dangling tool result. -/
theorem process_turn_forced_final (env : Env) (mcp : MCPState)
    (st : EngineState) (max_turns : Nat) (cF : Completion)
    (hpos : 0 < max_turns)
    (h : ∀ k, k < max_turns → ∃ c, env.llm k = .ok c ∧
        has_tool_calls c.message.tool_calls = true)
    (hfin : env.llm max_turns = .ok cF) :
    (process_turn env mcp st max_turns).llm_calls.length = max_turns + 1 ∧
    (∃ ms, (process_turn env mcp st max_turns).llm_calls.getLast?
        = some (ms, none)) ∧
    (process_turn env mcp st max_turns).events.filter is_message_event
      = [Event.message cF.message.content] := by
  have h0 : ∀ j, j < max_turns →
      ∃ c, env.llm ((0 : Nat) + j) = .ok c ∧
        has_tool_calls c.message.tool_calls = true := by
    intro j hj
    rw [Nat.zero_add]
    exact h j hj
  have hloop := run_loop_all_tool_calls env (mcp_list_tools mcp).2
    (mcp_list_tools mcp).1 max_turns
    { engine := st, call_idx := 0, pop_idx := 0, events := [],
      llm_calls := [], dispatches := [] } h0
  obtain ⟨hdone, hidx, hlen, hfm, hfe, hlast⟩ := hloop
  obtain ⟨m, hm, hrole⟩ := hlast hpos
  rw [Nat.zero_add] at hidx
  simp only [List.length_nil, Nat.zero_add] at hlen
  simp only [List.filter_nil] at hfm
  simp only [process_turn, hdone, Bool.false_eq_true, if_false]
  unfold final_fallback
  rw [hm]
  simp only [hrole, if_true, hidx, hfin]
  refine ⟨?_, ?_, ?_⟩
  · simp [hlen]
  · exact ⟨_, List.getLast?_concat _⟩
  · simp only [List.append_assoc, List.filter_append, hfm]
    rw [filter_eq_nil_of_benign is_message_event _
          (fun e he => (usage_events_benign env _ _ e he).1)]
    simp [is_message_event]

/-- C1 witness: one budgeted tool-requesting call, then a successful forced
final call; the turn makes two model calls, the last one without tools, and
yields exactly one `message` event. -/
theorem process_turn_forced_final_witness :
    (process_turn env_big mcp_empty st_demo 1).llm_calls.length = 2 ∧
    (∃ ms, (process_turn env_big mcp_empty st_demo 1).llm_calls.getLast?
        = some (ms, none)) ∧
    (process_turn env_big mcp_empty st_demo 1).events.filter is_message_event
      = [Event.message comp_done.message.content] :=
  process_turn_forced_final env_big mcp_empty st_demo 1 comp_done
    (Nat.succ_pos 0)
    (fun k hk => by
      interval_cases k
      exact ⟨comp_tool_req, rfl, rfl⟩)
    rfl

theorem store_message_messages (s : EngineState) (role : String)
    (c : Option String) : (store_message s role c).messages = s.messages := by
  unfold store_message
  split
  · rfl
  · split
    · rfl
    · rfl

theorem store_message_log_parts (s : EngineState) (role : String)
    (c : Option String) :
    ∃ tail, (store_message s role c).store_log = s.store_log ++ tail ∧
      ∀ q ∈ tail, q.1 = role := by
  unfold store_message
  split
  · exact ⟨[], by simp, by simp⟩
  · split
    · exact ⟨[], by simp, by simp⟩
    · refine ⟨[(role, c.getD "")], rfl, ?_⟩
      intro q hq
      simp only [List.mem_singleton] at hq
      subst hq
      rfl

/-! ## C2: the `search` → `search_arxiv` rename heuristic -/

/-- C2. When the model requests the tool name `"search"` and the
aggregated catalog (here: a single backend exposing only `search_arxiv`)
does not contain `"search"`, `process_turn` rewrites the name to
`"search_arxiv"`, emits a `step_update_name` event, and dispatches the
call — successfully — to `"search_arxiv"` on the owning backend, appending
the backend's result to history as a tool message. -/
theorem process_turn_search_rename (env : Env) (mcp : MCPState)
    (srv d sch : String) (f : String → PyVal → Except String ToolResult)
    (c0 : Completion) (tc : ToolCall) (res : ToolResult) (st : EngineState)
    (hmcp : mcp.sessions =
      [{ name := srv,
         tools_reply := .ok [{ name := "search_arxiv", description := d,
                               input_schema := sch }],
         call_tool := f }])
    (hsrv : srv ≠ "")
    (h0 : env.llm 0 = .ok c0)
    (htc : c0.message.tool_calls = some [tc])
    (hname : tc.function.name = "search")
    (hcall : f "search_arxiv" (parse_tool_args env.json_loads env.literal_eval
        tc.function.arguments) = .ok res) :
    Event.step_update_name "search_arxiv (corrected)"
      ∈ (process_turn env mcp st 1).events ∧
    (process_turn env mcp st 1).dispatches.map (fun dp => dp.tool)
      = ["search_arxiv"] ∧
    mk_tool_message tc.id (extract_content res.content)
      ∈ (process_turn env mcp st 1).engine.messages := by
  have hlt : mcp_list_tools mcp =
      ([{ name := "search_arxiv", description := d, input_schema := sch }],
       { mcp with tool_to_server := [("search_arxiv", srv)] }) := by
    simp [mcp_list_tools, hmcp, dict_set]
  cases hf : env.llm 1 with
  | error e =>
      refine ⟨?_, ?_, ?_⟩ <;>
        simp [process_turn, hlt, run_loop, h0, htc, has_tool_calls,
          run_tool_calls, process_tool_call, mcp_call_tool, dict_get,
          find_session, hmcp, hname, hsrv, hcall, final_fallback,
          List.getLast?_concat, mk_tool_message, hf]
  | ok cf =>
      refine ⟨?_, ?_, ?_⟩ <;>
        simp [process_turn, hlt, run_loop, h0, htc, has_tool_calls,
          run_tool_calls, process_tool_call, mcp_call_tool, dict_get,
          find_session, hmcp, hname, hsrv, hcall, final_fallback,
          List.getLast?_concat, mk_tool_message, hf,
          store_message_messages]

/-- C2 witness: with the `search_arxiv`-only backend and a model reply
requesting `"search"`, the rename event is emitted and the dispatch goes
to `search_arxiv`, whose result lands in history. -/
theorem process_turn_search_rename_witness :
    Event.step_update_name "search_arxiv (corrected)"
      ∈ (process_turn env_search mcp_arxiv st_demo 1).events ∧
    (process_turn env_search mcp_arxiv st_demo 1).dispatches.map
      (fun dp => dp.tool) = ["search_arxiv"] ∧
    mk_tool_message "c2"
        (extract_content (ResultContent.content_other "RES"))
      ∈ (process_turn env_search mcp_arxiv st_demo 1).engine.messages :=
  process_turn_search_rename env_search mcp_arxiv "srv" "" ""
    arxiv_session.call_tool comp_search_req req_search
    { content := .content_other "RES" } st_demo rfl (by decide) rfl rfl rfl
    rfl

/-! ## C4: unknown tool names are fatal to the call, not to the turn -/

/-- C4. When the model requests a tool name that is absent from the
aggregated catalog and is not the literal `"search"`, the turn is not
aborted: the not-found error text (listing the available names) is
appended to history as a tool-role message carrying the requesting call's
`tool_call_id`, the same text is emitted as a `step_output` event, no
`error` event is emitted, and the loop proceeds to its next iteration
(here: a second model call that finishes the turn with one `message`
event). -/
theorem process_turn_unknown_tool (env : Env) (mcp : MCPState)
    (srv : String) (tds : List ToolDef)
    (f : String → PyVal → Except String ToolResult)
    (c0 c1 : Completion) (tc : ToolCall) (st : EngineState)
    (hmcp : mcp.sessions =
      [{ name := srv, tools_reply := .ok tds, call_tool := f }])
    (h0 : env.llm 0 = .ok c0)
    (htc : c0.message.tool_calls = some [tc])
    (hnotin : tc.function.name ∉ tds.map (fun t => t.name))
    (hns : tc.function.name ≠ "search")
    (h1 : env.llm 1 = .ok c1)
    (hc1 : c1.message.tool_calls = none) :
    mk_tool_message tc.id (tool_error_message (tool_not_found_message
        tc.function.name (tds.map (fun t => t.name))))
      ∈ (process_turn env mcp st 2).engine.messages ∧
    Event.step_output (some (tool_error_message (tool_not_found_message
        tc.function.name (tds.map (fun t => t.name)))))
      ∈ (process_turn env mcp st 2).events ∧
    (process_turn env mcp st 2).llm_calls.length = 2 ∧
    (process_turn env mcp st 2).events.filter is_error_event = [] ∧
    (process_turn env mcp st 2).events.filter is_message_event
      = [Event.message c1.message.content] := by
  have hlt : mcp_list_tools mcp =
      (tds, { mcp with
        tool_to_server := tds.foldl (fun acc t => dict_set acc t.name srv) [] }) := by
    simp [mcp_list_tools, hmcp]
  have hu_e : ∀ m2 c2, (usage_events env m2 c2).filter is_error_event = [] :=
    fun m2 c2 => filter_eq_nil_of_benign _ _
      (fun e he => (usage_events_benign env m2 c2 e he).2)
  have hu_m : ∀ m2 c2, (usage_events env m2 c2).filter is_message_event = [] :=
    fun m2 c2 => filter_eq_nil_of_benign _ _
      (fun e he => (usage_events_benign env m2 c2 e he).1)
  refine ⟨?_, ?_, ?_, ?_, ?_⟩ <;>
    simp [process_turn, hlt, run_loop, h0, h1, htc, hc1, has_tool_calls,
      run_tool_calls, process_tool_call, hnotin, hns, mk_tool_message,
      store_message_messages, hu_e, hu_m, is_error_event, is_message_event]

/-- C4 witness: requesting `lookup` against a catalog holding only
`search_arxiv` injects the not-found text as a tool message and a
`step_output`, aborts nothing, and the turn still ends with one `message`
event. -/
theorem process_turn_unknown_tool_witness :
    mk_tool_message "c3" (tool_error_message (tool_not_found_message
        "lookup" ["search_arxiv"]))
      ∈ (process_turn env_unknown mcp_arxiv st_demo 2).engine.messages ∧
    Event.step_output (some (tool_error_message (tool_not_found_message
        "lookup" ["search_arxiv"])))
      ∈ (process_turn env_unknown mcp_arxiv st_demo 2).events ∧
    (process_turn env_unknown mcp_arxiv st_demo 2).llm_calls.length = 2 ∧
    (process_turn env_unknown mcp_arxiv st_demo 2).events.filter
      is_error_event = [] ∧
    (process_turn env_unknown mcp_arxiv st_demo 2).events.filter
      is_message_event = [Event.message comp_done.message.content] :=
  process_turn_unknown_tool env_unknown mcp_arxiv "srv"
    [{ name := "search_arxiv", description := "", input_schema := "" }]
    arxiv_session.call_tool comp_unknown_req comp_done req_unknown st_demo
    rfl rfl rfl (by decide) (by decide) rfl rfl

/-! ## C6 (corrected): display truncation vs. history vs. storage -/

set_option maxRecDepth 4000 in
/-- C6 counterexample. A `fetch` call returns a 501-character output: the
`step_output` display event is ellipsis-truncated and the full text is
appended to the conversation message list, but the persistent store never
receives it — the only write of the whole turn is the final assistant
reply, so the claim's "the full untruncated text is what is appended …
to persistent storage" is false at this input. -/
theorem display_truncation_counterexample :
    500 < big_out.length ∧
    Event.step_output (some (big_out.take 500 ++ "..."))
      ∈ (process_turn env_big mcp_one st_demo 1).events ∧
    mk_tool_message "c1" big_out
      ∈ (process_turn env_big mcp_one st_demo 1).engine.messages ∧
    (process_turn env_big mcp_one st_demo 1).engine.store_log
      = [("assistant", "done")] := by
  refine ⟨by decide, ?_, ?_, ?_⟩ <;>
    simp [process_turn, mcp_list_tools, mcp_one, fetch_session, dict_set,
      run_loop, env_big, env_base, comp_tool_req, req_fetch, has_tool_calls,
      run_tool_calls, process_tool_call, mcp_call_tool, dict_get,
      find_session, compute_display, extract_content, final_fallback,
      List.getLast?_concat, mk_tool_message, comp_done, store_message,
      demo_settings, st_demo, py_str_or, py_opt_truthy, usage_events,
      parse_tool_args]

/-- C6 (amended). For every executed tool call, output longer than 500
characters is ellipsis-truncated in the `step_output` display event (and
structured `search_arxiv` list results are reduced to
`(id, title, published, summary[:200] ++ "...")` per record for display
only), while the full untruncated text is what is appended to the
conversation message list; tool output is never written to persistent
storage — every store write a turn makes beyond the pre-existing log
carries the assistant role. -/
theorem process_turn_display_truncation (env : Env) (mcp : MCPState)
    (srv fn d sch : String)
    (f : String → PyVal → Except String ToolResult)
    (c0 cf : Completion) (tc : ToolCall) (res : ToolResult)
    (st : EngineState)
    (hmcp : mcp.sessions =
      [{ name := srv,
         tools_reply := .ok [{ name := fn, description := d,
                               input_schema := sch }],
         call_tool := f }])
    (hsrv : srv ≠ "")
    (hfn : fn ≠ "search_arxiv")
    (h0 : env.llm 0 = .ok c0)
    (htc : c0.message.tool_calls = some [tc])
    (hname : tc.function.name = fn)
    (hcall : f fn (parse_tool_args env.json_loads env.literal_eval
        tc.function.arguments) = .ok res)
    (_hlen : 500 < (extract_content res.content).length)
    (hfin : env.llm 1 = .ok cf) :
    Event.step_output (some ((extract_content res.content).take 500 ++ "..."))
      ∈ (process_turn env mcp st 1).events ∧
    mk_tool_message tc.id (extract_content res.content)
      ∈ (process_turn env mcp st 1).engine.messages ∧
    (∃ tail, (process_turn env mcp st 1).engine.store_log
        = st.store_log ++ tail ∧ ∀ q ∈ tail, q.1 = "assistant") ∧
    (∀ (jl : String → Option PyVal) (c : String) papers simplified,
      jl c = some (PyVal.pylist papers) →
      papers.mapM simplify_paper = some simplified →
      compute_display jl "search_arxiv" c = jsonDumps (PyVal.pylist simplified)) := by
  have hlt : mcp_list_tools mcp =
      ([{ name := fn, description := d, input_schema := sch }],
       { mcp with tool_to_server := [(fn, srv)] }) := by
    simp [mcp_list_tools, hmcp, dict_set]
  refine ⟨?_, ?_, ?_, ?_⟩
  · simp [process_turn, hlt, run_loop, h0, htc, has_tool_calls,
      run_tool_calls, process_tool_call, mcp_call_tool, dict_get,
      find_session, hmcp, hname, hsrv, hcall, compute_display, hfn,
      final_fallback, List.getLast?_concat, mk_tool_message, hfin,
      store_message_messages]
  · simp [process_turn, hlt, run_loop, h0, htc, has_tool_calls,
      run_tool_calls, process_tool_call, mcp_call_tool, dict_get,
      find_session, hmcp, hname, hsrv, hcall, compute_display, hfn,
      final_fallback, List.getLast?_concat, mk_tool_message, hfin,
      store_message_messages]
  · obtain ⟨tail, h1, h2⟩ := store_message_log_parts
      { messages := st.messages ++ [c0.message.model_dump,
          mk_tool_message tc.id (extract_content res.content),
          cf.message.model_dump],
        persistent_enabled := st.persistent_enabled,
        has_memory_store := st.has_memory_store,
        conversation_id := st.conversation_id,
        memory_dirty := st.memory_dirty,
        store_log := st.store_log }
      "assistant" (some (py_str_or cf.message.content ""))
    refine ⟨tail, ?_, h2⟩
    rw [← h1]
    simp [process_turn, hlt, run_loop, h0, htc, has_tool_calls,
      run_tool_calls, process_tool_call, mcp_call_tool, dict_get,
      find_session, hmcp, hname, hsrv, hcall, compute_display, hfn,
      final_fallback, List.getLast?_concat, mk_tool_message, hfin]
  · intro jl c papers simplified hjl hsimp
    simp only [List.mapM] at hsimp
    simp [compute_display, search_display, hjl, hsimp]

set_option maxRecDepth 4000 in
/-- C6 witness: the amended statement applied to the 501-character `fetch`
output (truncated display, full history, assistant-only store writes) and
to a concrete one-record `search_arxiv` payload (record reduced for
display). -/
theorem process_turn_display_truncation_witness :
    (Event.step_output (some (big_out.take 500 ++ "..."))
      ∈ (process_turn env_big mcp_one st_demo 1).events ∧
    mk_tool_message "c1" big_out
      ∈ (process_turn env_big mcp_one st_demo 1).engine.messages ∧
    (∃ tail, (process_turn env_big mcp_one st_demo 1).engine.store_log
        = st_demo.store_log ++ tail ∧ ∀ q ∈ tail, q.1 = "assistant")) ∧
    compute_display
        (fun _ => some (PyVal.pylist [PyVal.pydict
          [("id", PyVal.pystr "1"), ("title", PyVal.pystr "T"),
           ("published", PyVal.pystr "2020"),
           ("summary", PyVal.pystr "S")]]))
        "search_arxiv" "x"
      = jsonDumps (PyVal.pylist [PyVal.pydict
          [("id", PyVal.pystr "1"), ("title", PyVal.pystr "T"),
           ("published", PyVal.pystr "2020"),
           ("summary", PyVal.pystr ("S".take 200 ++ "..."))]]) := by
  have h := process_turn_display_truncation env_big mcp_one "srv" "fetch"
    "" "" fetch_session.call_tool comp_tool_req comp_done req_fetch
    { content := .content_other big_out } st_demo rfl (by decide) (by decide)
    rfl rfl rfl rfl (by decide) rfl
  exact ⟨⟨h.1, h.2.1, h.2.2.1⟩,
    h.2.2.2 (fun _ => some (PyVal.pylist [PyVal.pydict
        [("id", PyVal.pystr "1"), ("title", PyVal.pystr "T"),
         ("published", PyVal.pystr "2020"),
         ("summary", PyVal.pystr "S")]])) "x"
      [PyVal.pydict
        [("id", PyVal.pystr "1"), ("title", PyVal.pystr "T"),
         ("published", PyVal.pystr "2020"), ("summary", PyVal.pystr "S")]]
      [PyVal.pydict
        [("id", PyVal.pystr "1"), ("title", PyVal.pystr "T"),
         ("published", PyVal.pystr "2020"),
         ("summary", PyVal.pystr ("S".take 200 ++ "..."))]]
      rfl rfl⟩

end ChainlitMCP
